import Mathlib

/-!
Verification development for the DQ async-I/O factories, the long-transaction
write entry point and the fuzzer corpus harness.

Shallow embedding of

* `contrib/libs/grpc/test/core/util/fuzzer_corpus_test.cc`
  (`ExampleGenerator::Materialize`, `Begin`, `End`, `ExampleIterator`),
* `ydb/library/yql/dq/actors/compute/dq_compute_actor_async_io_factory.h`
  (`TDqSourceFactory`, `TDqSinkFactory`),
* `ydb/core/grpc_services/rpc_long_tx.h` (`DoLongTxWriteSameMailbox`).

Definitions come first, theorems follow.
-/

set_option autoImplicit false

deriving instance DecidableEq for Except

/-! ## Part 1. The corpus harness: `fuzzer_corpus_test.cc` -/

namespace FuzzerCorpus

/-- What `Materialize` reads from outside the generator: the two command-line
flags, the `TEST_SRCDIR` environment variable (`none` when `gpr_getenv` returns
`nullptr`) and the file system as seen through `opendir`/`readdir`: for a path,
`none` when `opendir` returns `nullptr`, otherwise the entry names that the
successive `readdir` calls return, in that order. -/
structure TEnvironment where
  FLAGS_file : String
  FLAGS_directory : String
  TEST_SRCDIR : Option String
  opendir : String → Option (List String)

/-- The two ways `Materialize` terminates the process. -/
inductive TAbort where
  /-- The `abort()` of line 104, after `perror("Couldn't open the directory")`. -/
  | CouldntOpenDirectory
  /-- The failure of `GPR_ASSERT(!examples_.empty())`, line 111. -/
  | AssertExamplesNotEmpty
  deriving DecidableEq, Repr

/-- The loop of lines 95-99: one `readdir` result after the other; an entry
whose name is neither `.` nor `..` is pushed back as `directory + "/" + d_name`. -/
def ReadDirLoop (directory : String) : List String → List String → List String
  | [], examples_ => examples_
  | d_name :: rest, examples_ =>
    if d_name != "." && d_name != ".." then
      ReadDirLoop directory rest (examples_ ++ [directory ++ "/" ++ d_name])
    else
      ReadDirLoop directory rest examples_

/-- The directory that is opened (lines 84-88): the flag value, prefixed with
`TEST_SRCDIR + "/com_github_grpc_grpc/"` when the variable is set. -/
def CorpusDirectory (env : TEnvironment) : String :=
  match env.TEST_SRCDIR with
  | some test_srcdir => test_srcdir ++ "/com_github_grpc_grpc/" ++ env.FLAGS_directory
  | none => env.FLAGS_directory

/-- Lines 77-108 of `ExampleGenerator::Materialize`: the filling of `examples_`
when it is empty. The result is the new value of `examples_`, or the abort of
line 104. -/
def MaterializeFill (env : TEnvironment) (examples_ : List String) :
    Except TAbort (List String) :=
  if examples_.isEmpty then
    let examples1 :=
      if !env.FLAGS_file.isEmpty then examples_ ++ [env.FLAGS_file] else examples_
    if !env.FLAGS_directory.isEmpty then
      let directory := CorpusDirectory env
      match env.opendir directory with
      | some entries => .ok (ReadDirLoop directory entries examples1)
      | none => .error .CouldntOpenDirectory
    else
      .ok examples1
  else
    .ok examples_

/-- The member function `ExampleGenerator::Materialize` (lines 76-112): the
filling above followed by `GPR_ASSERT(!examples_.empty())`. The argument is the
value of the mutable member `examples_` before the call, the result its value
after a normal return. -/
def Materialize (env : TEnvironment) (examples_ : List String) :
    Except TAbort (List String) :=
  match MaterializeFill env examples_ with
  | .error a => .error a
  | .ok examples1 =>
    if !examples1.isEmpty then .ok examples1 else .error .AssertExamplesNotEmpty

/-- The class `ExampleIterator` (lines 117-142). `base_` stands for the address
of the generator, the two vector iterators are positions in `examples_`. -/
structure ExampleIterator where
  base_ : Nat
  begin_ : Nat
  current_ : Nat
  deriving DecidableEq, Repr

/-- The method `ExampleIterator::Advance`: `current_++`. -/
def ExampleIterator.Advance (it : ExampleIterator) : ExampleIterator :=
  { it with current_ := it.current_ + 1 }

/-- The method `ExampleIterator::Equals`: same generator and same `current_`. -/
def ExampleIterator.Equals (it other : ExampleIterator) : Bool :=
  it.base_ == other.base_ && it.current_ == other.current_

/-- The method `ExampleIterator::Current`: the element `current_` points at. -/
def ExampleIterator.Current (examples_ : List String) (it : ExampleIterator) :
    Option String :=
  examples_.get? it.current_

/-- The method `ExampleGenerator::Begin` (lines 144-148) of the generator at
address `self`: `Materialize`, then an iterator at `examples_.begin()`. Returns
the new `examples_` with the iterator. -/
def Begin (self : Nat) (env : TEnvironment) (examples_ : List String) :
    Except TAbort (List String × ExampleIterator) :=
  match Materialize env examples_ with
  | .error a => .error a
  | .ok examples1 => .ok (examples1, { base_ := self, begin_ := 0, current_ := 0 })

/-- The method `ExampleGenerator::End` (lines 150-154): `Materialize`, then an
iterator at `examples_.end()`. -/
def End (self : Nat) (env : TEnvironment) (examples_ : List String) :
    Except TAbort (List String × ExampleIterator) :=
  match Materialize env examples_ with
  | .error a => .error a
  | .ok examples1 =>
    .ok (examples1, { base_ := self, begin_ := examples1.length,
                      current_ := examples1.length })

/-- The entries a directory listing contributes: every name but `.` and `..`,
in reading order, each prefixed with `directory + "/"`. -/
def CorpusEntries (directory : String) (entries : List String) : List String :=
  (entries.filter (fun e => e != "." && e != "..")).map (fun e => directory ++ "/" ++ e)

/-- What the directory flag contributes to the example list: nothing when the
flag is empty or the directory cannot be opened, else its `CorpusEntries`. -/
def DirectoryContribution (env : TEnvironment) : List String :=
  if env.FLAGS_directory.isEmpty then []
  else
    match env.opendir (CorpusDirectory env) with
    | some entries => CorpusEntries (CorpusDirectory env) entries
    | none => []

/-- The list the harness is specified to build from an empty `examples_`: the
file flag when it is non-empty, then the directory's entries when the directory
flag is non-empty and the directory was read as `entries`. -/
def ExpectedExamples (env : TEnvironment) (entries : List String) : List String :=
  (if env.FLAGS_file = "" then [] else [env.FLAGS_file]) ++
    (if env.FLAGS_directory = "" then [] else CorpusEntries (CorpusDirectory env) entries)

/-- An environment for the examples: a directory `corpus` with three entries
besides `.` and `..`, nothing else on the file system. -/
def sampleEnv (file directory : String) (srcdir : Option String) : TEnvironment where
  FLAGS_file := file
  FLAGS_directory := directory
  TEST_SRCDIR := srcdir
  opendir := fun path =>
    if path = "corpus" then some [".", "a.bin", "..", "b.bin", "a.bin"]
    else if path = "/src/com_github_grpc_grpc/corpus" then some ["x", ".", ".."]
    else if path = "empty" then some [".", ".."]
    else none

end FuzzerCorpus


/-! ## Part 2. The factories: `dq_compute_actor_async_io_factory.h` -/

namespace NYql.NDq

/-- The message `google::protobuf::Any`: a type URL and the serialized bytes. -/
structure TAny where
  type_url : String
  value : List Nat
  deriving DecidableEq, Repr

/-- What `Register<TProtoMsg>` uses of a protobuf message class `M`:
`M::descriptor()->full_name()`, `any.Is<M>()`, and `any.UnpackTo(&settings)` on
a default-constructed `settings`, which returns the success flag and leaves
`settings` with the second component. These belong to the protobuf library and
are parameters here. -/
class TProtoMsg (M : Type) where
  full_name : String
  Is : TAny → Bool
  UnpackTo : TAny → Bool × M

/-- The message `NDqProto::TTaskInput::GetSource()`: the connector type name and
the settings envelope. -/
structure TTaskSource where
  GetType : String
  GetSettings : TAny
  deriving DecidableEq, Repr

/-- The message `NDqProto::TTaskInput`, as far as the factory reads it. -/
structure TTaskInput where
  GetSource : TTaskSource
  deriving DecidableEq, Repr

/-- The message `NDqProto::TTaskOutput::GetSink()`. -/
structure TTaskSink where
  GetType : String
  GetSettings : TAny
  deriving DecidableEq, Repr

/-- The message `NDqProto::TTaskOutput`, as far as the factory reads it. -/
structure TTaskOutput where
  GetSink : TTaskSink
  deriving DecidableEq, Repr

/-- Modelled from the spec: the struct `IDqSourceActorFactory::TArguments`,
declared in `dq_compute_actor_sources.h`, which is not among the sources: the
descriptor (read on line 37 as `args.InputDesc`) and the construction context
the engine provides, of a type `κ` the factory never looks into. -/
structure TSourceArguments (κ : Type) where
  InputDesc : TTaskInput
  Context : κ
  deriving DecidableEq, Repr

/-- Modelled from the spec: the struct `IDqSinkFactory::TArguments`, declared
in `dq_compute_actor_async_output.h`, which is not among the sources: the
descriptor (read on line 73 as `args.OutputDesc`) and the construction
context. -/
structure TSinkArguments (κ : Type) where
  OutputDesc : TTaskOutput
  Context : κ
  deriving DecidableEq, Repr

/-- The faults of the factories. `YqlPanic` is the exception of a failed
`YQL_ENSURE`, with the message streamed into the macro; the other two are the
faults the spec names for `Create` and `Register`. -/
inductive TFault where
  | YqlPanic (Message : String)
  | UnknownConnectorType (type_name : String)
  | DuplicateRegistration (type_name : String)
  deriving DecidableEq, Repr

/-- Code with effects on a world `σ` (the actor system) that returns an `α` or
throws: the result or the fault, and the world afterwards. -/
abbrev TEffect (σ α : Type) := σ → Except TFault α × σ

/-- Modelled from the spec: the macro `YQL_ENSURE(condition, message)` of
`yql_panic.h`, which is not among the sources. A false condition signals a fault
that carries the message and leaves the world as it is; a true one lets the
code after it run. -/
def YQL_ENSURE {σ α : Type} (condition : Bool) (message : String)
    (rest : TEffect σ α) : TEffect σ α :=
  fun s => if condition then rest s else (.error (.YqlPanic message), s)

/-- The pair `std::pair<IDqSourceActor*, NActors::IActor*>`, pointers as
addresses. A typed creator may return anything convertible to it
(`TCastsToSourceActorPair`); its result is taken after that conversion. -/
abbrev TSourceActorPair := Nat × Nat

/-- The pair `std::pair<IDqComputeActorAsyncOutput*, NActors::IActor*>`. -/
abbrev TSinkActorPair := Nat × Nat

/-- Modelled from the spec: the type `THashMap<TString, V>` of the member
`CreatorsByType` (lines 48 and 84), whose declaration is not among the sources:
a mapping from type name to value with unique keys, kept as an association
list in insertion order. -/
abbrev THashMap (V : Type) := List (String × V)

/-- Modelled from the spec: the lookup of a type name in the mapping, the
value stored under `key` if there is one. -/
def THashMap.FindPtr {V : Type} : THashMap V → String → Option V
  | [], _ => none
  | (k, v) :: rest, key => if k = key then some v else THashMap.FindPtr rest key

/-- The alias `TDqSourceFactory::TCreatorFunction` (line 26). -/
abbrev TSourceCreatorFunction (σ κ : Type) :=
  TSourceArguments κ → TEffect σ TSourceActorPair

/-- The alias `TDqSinkFactory::TCreatorFunction` (line 62). -/
abbrev TSinkCreatorFunction (σ κ : Type) :=
  TSinkArguments κ → TEffect σ TSinkActorPair

/-- The class `TDqSourceFactory`: its only member, `CreatorsByType`. -/
structure TDqSourceFactory (σ κ : Type) where
  CreatorsByType : THashMap (TSourceCreatorFunction σ κ)

/-- The class `TDqSinkFactory`: its only member, `CreatorsByType`. -/
structure TDqSinkFactory (σ κ : Type) where
  CreatorsByType : THashMap (TSinkCreatorFunction σ κ)

/-- The lambda that `TDqSourceFactory::Register<TProtoMsg>` builds (lines 35-44)
and hands to the untyped `Register`. -/
def TDqSourceFactory.TypedCreatorFunction {σ κ M : Type} [TProtoMsg M] (type : String)
    (creator : M → TSourceArguments κ → TEffect σ TSourceActorPair) :
    TSourceCreatorFunction σ κ :=
  fun args =>
    let settingsAny := args.InputDesc.GetSource.GetSettings
    YQL_ENSURE (TProtoMsg.Is M settingsAny)
      ("Source \"" ++ type ++ "\" settings are expected to have protobuf type "
        ++ TProtoMsg.full_name M ++ ", but got " ++ settingsAny.type_url) <|
    let unpacked : Bool × M := TProtoMsg.UnpackTo settingsAny
    YQL_ENSURE unpacked.1
      ("Failed to unpack settings of type \"" ++ type ++ "\"") <|
    creator unpacked.2 args

/-- The lambda that `TDqSinkFactory::Register<TProtoMsg>` builds (lines 71-80). -/
def TDqSinkFactory.TypedCreatorFunction {σ κ M : Type} [TProtoMsg M] (type : String)
    (creator : M → TSinkArguments κ → TEffect σ TSinkActorPair) :
    TSinkCreatorFunction σ κ :=
  fun args =>
    let settingsAny := args.OutputDesc.GetSink.GetSettings
    YQL_ENSURE (TProtoMsg.Is M settingsAny)
      ("Sink \"" ++ type ++ "\" settings are expected to have protobuf type "
        ++ TProtoMsg.full_name M ++ ", but got " ++ settingsAny.type_url) <|
    let unpacked : Bool × M := TProtoMsg.UnpackTo settingsAny
    YQL_ENSURE unpacked.1
      ("Failed to unpack settings of type \"" ++ type ++ "\"") <|
    creator unpacked.2 args

/-- Modelled from the spec: the untyped `Register(type, creator)` of both
factories (declared on lines 30 and 66, defined outside the sources), on the
map it mutates. It stores `creator` under `type`; a `type` that already has a
creator is a configuration error, the `DuplicateRegistration` fault, and
nothing is overwritten. -/
def RegisterCreator {V : Type} (CreatorsByType : THashMap V) (type : String)
    (creator : V) : Except TFault (THashMap V) :=
  match CreatorsByType.FindPtr type with
  | some _ => .error (.DuplicateRegistration type)
  | none => .ok (CreatorsByType ++ [(type, creator)])

/-- Modelled from the spec: the untyped `TDqSourceFactory::Register` (line 30),
which is `RegisterCreator` on the member `CreatorsByType`. -/
def TDqSourceFactory.Register {σ κ : Type} (self : TDqSourceFactory σ κ) (type : String)
    (creator : TSourceCreatorFunction σ κ) : Except TFault (TDqSourceFactory σ κ) :=
  match RegisterCreator self.CreatorsByType type creator with
  | .error f => .error f
  | .ok m => .ok { CreatorsByType := m }

/-- Modelled from the spec: the untyped `TDqSinkFactory::Register` (line 66),
which is `RegisterCreator` on the member `CreatorsByType`. -/
def TDqSinkFactory.Register {σ κ : Type} (self : TDqSinkFactory σ κ) (type : String)
    (creator : TSinkCreatorFunction σ κ) : Except TFault (TDqSinkFactory σ κ) :=
  match RegisterCreator self.CreatorsByType type creator with
  | .error f => .error f
  | .ok m => .ok { CreatorsByType := m }

/-- The template `TDqSourceFactory::Register<TProtoMsg>` (lines 32-45): the
untyped `Register` on the lambda. -/
def TDqSourceFactory.RegisterTyped {σ κ M : Type} [TProtoMsg M]
    (self : TDqSourceFactory σ κ) (type : String)
    (creator : M → TSourceArguments κ → TEffect σ TSourceActorPair) :
    Except TFault (TDqSourceFactory σ κ) :=
  self.Register type (TDqSourceFactory.TypedCreatorFunction type creator)

/-- The template `TDqSinkFactory::Register<TProtoMsg>` (lines 68-81). -/
def TDqSinkFactory.RegisterTyped {σ κ M : Type} [TProtoMsg M]
    (self : TDqSinkFactory σ κ) (type : String)
    (creator : M → TSinkArguments κ → TEffect σ TSinkActorPair) :
    Except TFault (TDqSinkFactory σ κ) :=
  self.Register type (TDqSinkFactory.TypedCreatorFunction type creator)

/-- Modelled from the spec: `TDqSourceFactory::CreateDqSourceActor`, declared on
line 28 and defined outside the sources. It looks up the type name carried in
the arguments' descriptor; if absent it signals `UnknownConnectorType` naming
that type, otherwise it invokes the matching creator function and returns its
result. -/
def TDqSourceFactory.CreateDqSourceActor {σ κ : Type} (self : TDqSourceFactory σ κ)
    (args : TSourceArguments κ) : TEffect σ TSourceActorPair :=
  fun s =>
    match self.CreatorsByType.FindPtr args.InputDesc.GetSource.GetType with
    | none => (.error (.UnknownConnectorType args.InputDesc.GetSource.GetType), s)
    | some creator => creator args s

/-- Modelled from the spec: `TDqSinkFactory::CreateDqSink`, declared on line 64
and defined outside the sources; as for the source factory. -/
def TDqSinkFactory.CreateDqSink {σ κ : Type} (self : TDqSinkFactory σ κ)
    (args : TSinkArguments κ) : TEffect σ TSinkActorPair :=
  fun s =>
    match self.CreatorsByType.FindPtr args.OutputDesc.GetSink.GetType with
    | none => (.error (.UnknownConnectorType args.OutputDesc.GetSink.GetType), s)
    | some creator => creator args s

/-- A sequence of registrations on the map, in order; the first fault stops
it. -/
def RegisterCreators {V : Type} : THashMap V → List (String × V) →
    Except TFault (THashMap V)
  | m, [] => .ok m
  | m, (type, creator) :: rest =>
    match RegisterCreator m type creator with
    | .error f => .error f
    | .ok m1 => RegisterCreators m1 rest

/-- A sequence of untyped source registrations at startup, in order; the first
fault stops it. -/
def TDqSourceFactory.RegisterAll {σ κ : Type} :
    TDqSourceFactory σ κ → List (String × TSourceCreatorFunction σ κ) →
      Except TFault (TDqSourceFactory σ κ)
  | self, [] => .ok self
  | self, (type, creator) :: rest =>
    match self.Register type creator with
    | .error f => .error f
    | .ok self1 => TDqSourceFactory.RegisterAll self1 rest

/-- A sequence of untyped sink registrations at startup, in order. -/
def TDqSinkFactory.RegisterAll {σ κ : Type} :
    TDqSinkFactory σ κ → List (String × TSinkCreatorFunction σ κ) →
      Except TFault (TDqSinkFactory σ κ)
  | self, [] => .ok self
  | self, (type, creator) :: rest =>
    match self.Register type creator with
    | .error f => .error f
    | .ok self1 => TDqSinkFactory.RegisterAll self1 rest

/-- The fault the spec calls `SettingsTypeMismatch`: the panic of the first
`YQL_ENSURE` of the lambda (lines 38-40 and 74-76) of the factory `kind`
(`Source` or `Sink`), for the registered type name, the expected message type
and the type URL found. -/
def SettingsTypeMismatch (kind type expected actual : String) : TFault :=
  .YqlPanic (kind ++ " \"" ++ type ++ "\" settings are expected to have protobuf type "
    ++ expected ++ ", but got " ++ actual)

/-- The fault the spec calls `SettingsDecodeFailure`: the panic of the second
`YQL_ENSURE` of the lambda (lines 42 and 78). -/
def SettingsDecodeFailure (type : String) : TFault :=
  .YqlPanic ("Failed to unpack settings of type \"" ++ type ++ "\"")

/-- A typed creator with a call log added to the world: every invocation
appends the settings and the arguments it was called with. -/
def TracedTyped {σ M A π : Type} (creator : M → A → TEffect σ π) :
    M → A → TEffect (σ × List (M × A)) π :=
  fun settings args w =>
    ((creator settings args w.1).1,
     ((creator settings args w.1).2, w.2 ++ [(settings, args)]))

/-- A creator function with a call log added to the world: every invocation
appends the key it is registered under and the arguments. -/
def Traced {σ A π : Type} (type : String) (creator : A → TEffect σ π) :
    A → TEffect (σ × List (String × A)) π :=
  fun args w =>
    ((creator args w.1).1, ((creator args w.1).2, w.2 ++ [(type, args)]))

/-- A registry map with every creator traced under its key. -/
def TracedMap {σ A π : Type} (m : THashMap (A → TEffect σ π)) :
    THashMap (A → TEffect (σ × List (String × A)) π) :=
  m.map (fun e => (e.1, Traced e.1 e.2))

/-- A source factory whose creators are all traced under their keys. -/
def TDqSourceFactory.Traced {σ κ : Type} (self : TDqSourceFactory σ κ) :
    TDqSourceFactory (σ × List (String × TSourceArguments κ)) κ :=
  { CreatorsByType := TracedMap self.CreatorsByType }

/-- A sink factory whose creators are all traced under their keys. -/
def TDqSinkFactory.Traced {σ κ : Type} (self : TDqSinkFactory σ κ) :
    TDqSinkFactory (σ × List (String × TSinkArguments κ)) κ :=
  { CreatorsByType := TracedMap self.CreatorsByType }

/-- A settings message for the examples: the one field of a CSV connector. -/
structure TCsvSettings where
  delimiter : Nat
  deriving DecidableEq, Repr

instance : TProtoMsg TCsvSettings where
  full_name := "NYql.TCsvSettings"
  Is := fun any => any.type_url == "type.googleapis.com/NYql.TCsvSettings"
  UnpackTo := fun any =>
    match any.value with
    | [d] => (true, { delimiter := d })
    | _ => (false, { delimiter := 0 })

/-- A typed creator for the examples: the world counts the actors created; the
pair is made of the next two addresses, offset by the delimiter. -/
def csvCreator {A : Type} : TCsvSettings → A → TEffect Nat (Nat × Nat) :=
  fun settings _ n => (.ok (n + settings.delimiter, n + settings.delimiter + 1), n + 2)

/-- Source arguments for the examples. -/
def sourceArgs (type url : String) (value : List Nat) : TSourceArguments Nat :=
  { InputDesc := { GetSource := { GetType := type,
                                  GetSettings := { type_url := url, value := value } } },
    Context := 5 }

/-- Sink arguments for the examples. -/
def sinkArgs (type url : String) (value : List Nat) : TSinkArguments Nat :=
  { OutputDesc := { GetSink := { GetType := type,
                                 GetSettings := { type_url := url, value := value } } },
    Context := 5 }

/-- A source factory for the examples, holding only `csv`. -/
def csvSourceFactory : TDqSourceFactory Nat Nat :=
  { CreatorsByType := [("csv", TDqSourceFactory.TypedCreatorFunction "csv" csvCreator)] }

/-- A sink factory for the examples, holding only `csv`. -/
def csvSinkFactory : TDqSinkFactory Nat Nat :=
  { CreatorsByType := [("csv", TDqSinkFactory.TypedCreatorFunction "csv" csvCreator)] }

/-- The type URL of the example settings. -/
def csvUrl : String := "type.googleapis.com/NYql.TCsvSettings"

end NYql.NDq

/-! ## Part 3. The long-transaction write: `rpc_long_tx.h` -/

namespace NKikimr.NGRpcService

/-- Modelled from the spec: a partition key range, which `scheme_cache.h` (not
among the sources) declares: the keys from `From`, included, up to `To`,
excluded; a missing bound is unbounded on that side. -/
structure TKeyRange where
  From : Option Int
  To : Option Int
  deriving DecidableEq, Repr

/-- Whether a key falls in the range. -/
def TKeyRange.Contains (range : TKeyRange) (key : Int) : Bool :=
  (match range.From with
   | none => true
   | some a => decide (a ≤ key))
  && (match range.To with
      | none => true
      | some b => decide (key < b))

/-- Modelled from the spec: one entry of the navigated partitioning, a key
range and the identity of the partition that owns it. -/
structure TPartition where
  Range : TKeyRange
  ShardId : Nat
  deriving DecidableEq, Repr

/-- Modelled from the spec: the type `NSchemeCache::TSchemeCacheNavigate` of
`navigateResult`, declared in `scheme_cache.h`, which is not among the sources:
whether the path resolved to an existing, writable table, and the snapshot of
its ordered partition key ranges. -/
structure TSchemeCacheNavigate where
  Resolved : Bool
  Partitions : List TPartition
  deriving DecidableEq, Repr

/-- Modelled from the spec: one row of the batch, its key and its other cells. -/
structure TRow where
  Key : Int
  Cells : List Int
  deriving DecidableEq, Repr

/-- Modelled from the spec: the row batch `arrow::RecordBatch`, as the list of
its rows. -/
abbrev TRecordBatch := List TRow

/-- Modelled from the spec: the entries of `NYql::TIssues` that the routing can
produce. -/
inductive TIssue where
  | PathResolutionFailure (path : String)
  | PartitionRoutingFailure (key : Int)
  deriving DecidableEq, Repr

/-- Modelled from the spec: one write operation of the fan-out, addressed to a
partition and tagged with the transaction and deduplication identifiers. -/
structure TWriteOp where
  ShardId : Nat
  LongTxId : Nat
  DedupId : String
  Batch : TRecordBatch
  deriving DecidableEq, Repr

/-- Modelled from the spec: step 2 of the write, whose code is outside the
sources. The batch is partitioned according to the ordered key ranges: each
partition in turn takes the rows whose key falls in its range, the rows left
go on to the partitions after it. The result is one sub-batch per partition,
in order, and the rows whose key falls outside all ranges. -/
def SplitBatch : List TPartition → TRecordBatch → List TRecordBatch × TRecordBatch
  | [], batch => ([], batch)
  | p :: rest, batch =>
    (batch.filter (fun row => p.Range.Contains row.Key)
        :: (SplitBatch rest (batch.filter (fun row => !p.Range.Contains row.Key))).1,
     (SplitBatch rest (batch.filter (fun row => !p.Range.Contains row.Key))).2)

/-- Modelled from the spec: step 3 of the write: one write operation for each
non-empty sub-batch, to the owning partition, tagged with `longTxId` and
`dedupId`. -/
def WriteOperations (longTxId : Nat) (dedupId : String) (partitions : List TPartition)
    (subBatches : List TRecordBatch) : List TWriteOp :=
  ((partitions.zip subBatches).filter (fun pb => !pb.2.isEmpty)).map
    (fun pb => { ShardId := pb.1.ShardId, LongTxId := longTxId, DedupId := dedupId,
                 Batch := pb.2 })

set_option linter.unusedVariables false in
/-- Modelled from the spec: `DoLongTxWriteSameMailbox`, declared on lines 8-11
and defined outside the sources, up to the fan-out (steps 1 to 3 of the write
algorithm). A path that did not resolve to a writable table is a single
`PathResolutionFailure`; a row whose key falls outside all ranges is a
`PartitionRoutingFailure`; otherwise the result is the list of write
operations issued. The issues stand for the out-parameter `issues`. -/
def DoLongTxWriteSameMailbox (longTxId : Nat) (dedupId databaseName path : String)
    (navigateResult : TSchemeCacheNavigate) (batch : TRecordBatch) :
    Except (List TIssue) (List TWriteOp) :=
  if !navigateResult.Resolved then .error [.PathResolutionFailure path]
  else
    match (SplitBatch navigateResult.Partitions batch).2 with
    | row :: _ => .error [.PartitionRoutingFailure row.Key]
    | [] =>
      .ok (WriteOperations longTxId dedupId navigateResult.Partitions
            (SplitBatch navigateResult.Partitions batch).1)

/-- The index of the partition that owns a key: the first one, in order, whose
range contains it. -/
def FindPartition : List TPartition → Int → Option Nat
  | [], _ => none
  | p :: rest, key =>
    if p.Range.Contains key then some 0 else (FindPartition rest key).map (· + 1)

/-- The partitioning of the example: keys below 100 to partition 1, keys from
100 on to partition 2. -/
def twoRanges : TSchemeCacheNavigate :=
  { Resolved := true,
    Partitions := [{ Range := { From := none, To := some 100 }, ShardId := 1 },
                   { Range := { From := some 100, To := none }, ShardId := 2 }] }

/-- The batch of the example: ten rows, six with a key below 100. -/
def tenRows : TRecordBatch :=
  [10, 150, 20, 100, 30, 99, 250, 40, 50, 101].map (fun k => { Key := k, Cells := [k] })

end NKikimr.NGRpcService

/-! ## Theorems -/

namespace FuzzerCorpus

/-- The `readdir` loop appends the directory's `CorpusEntries` to `examples_`. -/
theorem ReadDirLoop_eq (directory : String) (entries examples_ : List String) :
    ReadDirLoop directory entries examples_
      = examples_ ++ CorpusEntries directory entries := by
  induction entries generalizing examples_ with
  | nil => simp [ReadDirLoop, CorpusEntries]
  | cons d_name rest ih =>
    unfold ReadDirLoop
    by_cases h : (d_name != "." && d_name != "..") = true
    · rw [if_pos h, ih]
      simp [CorpusEntries, List.filter_cons, h]
    · rw [if_neg h, ih]
      simp [CorpusEntries, List.filter_cons, h]

/-- The test `!s.empty()` on a string. -/
theorem isEmpty_eq_false_iff (s : String) : s.isEmpty = false ↔ s ≠ "" := by
  rw [← Bool.not_eq_true, String.isEmpty_iff]

/-- The filling of an empty `examples_`, in closed form. -/
theorem MaterializeFill_nil (env : TEnvironment) :
    MaterializeFill env []
      = if env.FLAGS_directory = "" then
          .ok (if env.FLAGS_file = "" then [] else [env.FLAGS_file])
        else
          match env.opendir (CorpusDirectory env) with
          | some entries =>
            .ok ((if env.FLAGS_file = "" then [] else [env.FLAGS_file])
                  ++ CorpusEntries (CorpusDirectory env) entries)
          | none => .error .CouldntOpenDirectory := by
  unfold MaterializeFill
  by_cases hd : env.FLAGS_directory = "" <;> by_cases hf : env.FLAGS_file = ""
  all_goals
    cases ho : env.opendir (CorpusDirectory env) <;>
      simp [isEmpty_eq_false_iff, hd, hf, ho, ReadDirLoop_eq]

/-- On a non-empty `examples_` the filling does nothing. -/
theorem MaterializeFill_of_ne_nil (env : TEnvironment) (examples_ : List String)
    (h : examples_ ≠ []) : MaterializeFill env examples_ = .ok examples_ := by
  cases examples_ with
  | nil => exact absurd rfl h
  | cons a l => simp [MaterializeFill]

/-- On a non-empty `examples_` the whole of `Materialize` does nothing. -/
theorem Materialize_of_ne_nil (env : TEnvironment) (examples_ : List String)
    (h : examples_ ≠ []) : Materialize env examples_ = .ok examples_ := by
  unfold Materialize
  rw [MaterializeFill_of_ne_nil env examples_ h]
  cases examples_ with
  | nil => exact absurd rfl h
  | cons a l => simp

/-- A normal return of `Materialize` leaves a non-empty `examples_`. -/
theorem Materialize_ok_ne_nil (env : TEnvironment) (examples_ l : List String)
    (h : Materialize env examples_ = .ok l) : l ≠ [] := by
  unfold Materialize at h
  cases hfill : MaterializeFill env examples_ with
  | error a => rw [hfill] at h; simp at h
  | ok examples1 =>
    rw [hfill] at h
    cases examples1 with
    | nil => simp at h
    | cons a t =>
      simp at h
      rw [← h]; simp

/-- Advancing an iterator `n` times moves `current_` by `n` and nothing else. -/
theorem Advance_iterate (it : ExampleIterator) (n : Nat) :
    ExampleIterator.Advance^[n] it = { it with current_ := it.current_ + n } := by
  induction n generalizing it with
  | zero => rfl
  | succ k ih =>
    rw [Function.iterate_succ_apply, ih]
    simp [ExampleIterator.Advance, Nat.add_assoc, Nat.add_comm 1 k]

/-- C7, as stated, fails: with an empty `--file` and a directory that opens
but holds only `.` and `..`, `Materialize` does not produce the (empty) list of
the claim, it aborts at `GPR_ASSERT(!examples_.empty())`. -/
theorem Materialize_empty_corpus_aborts :
    (sampleEnv "" "empty" none).opendir (CorpusDirectory (sampleEnv "" "empty" none))
        = some [".", ".."]
      ∧ ExpectedExamples (sampleEnv "" "empty" none) [".", ".."] = []
      ∧ Materialize (sampleEnv "" "empty" none) [] = .error .AssertExamplesNotEmpty
      ∧ Materialize (sampleEnv "" "empty" none) []
          ≠ .ok (ExpectedExamples (sampleEnv "" "empty" none) [".", ".."]) := by
  decide

/-- C7, amended: starting from an empty `examples_`, for every `--file` value,
every `--directory` value that is empty or whose directory (prefixed with
`TEST_SRCDIR + "/com_github_grpc_grpc/"` when that variable is set) opens and
reads as `entries`, `Materialize` builds the list made of the file flag (only
when non-empty) followed, in reading order, by one path `directory + "/" + e`
for each entry `e` other than `.` and `..` (none when the directory flag is
empty); it returns normally with exactly that list when the list is non-empty
and aborts at the final `GPR_ASSERT` when it is empty. -/
theorem Materialize_from_empty (env : TEnvironment) (entries : List String)
    (hopen : env.FLAGS_directory ≠ "" →
      env.opendir (CorpusDirectory env) = some entries) :
    ExpectedExamples env entries
        = (if env.FLAGS_file = "" then [] else [env.FLAGS_file]) ++
          (if env.FLAGS_directory = "" then []
           else (entries.filter (fun e => e != "." && e != "..")).map
                  (fun e => CorpusDirectory env ++ "/" ++ e))
      ∧ (ExpectedExamples env entries ≠ [] →
          Materialize env [] = .ok (ExpectedExamples env entries))
      ∧ (ExpectedExamples env entries = [] →
          Materialize env [] = .error .AssertExamplesNotEmpty) := by
  refine ⟨rfl, ?_, ?_⟩
  · intro hne
    unfold Materialize
    rw [MaterializeFill_nil]
    by_cases hd : env.FLAGS_directory = ""
    · simp only [ExpectedExamples, hd, if_true, List.append_nil] at hne ⊢
      cases hl : (if env.FLAGS_file = "" then [] else [env.FLAGS_file]) with
      | nil => exact absurd hl hne
      | cons a t => simp
    · rw [if_neg hd, hopen hd]
      simp only [ExpectedExamples, hd, if_false] at hne ⊢
      cases hl : ((if env.FLAGS_file = "" then [] else [env.FLAGS_file])
          ++ CorpusEntries (CorpusDirectory env) entries) with
      | nil => exact absurd hl hne
      | cons a t => simp
  · intro he
    unfold Materialize
    rw [MaterializeFill_nil]
    by_cases hd : env.FLAGS_directory = ""
    · simp only [ExpectedExamples, hd, if_true, List.append_nil] at he ⊢
      rw [he]; rfl
    · rw [if_neg hd, hopen hd]
      simp only [ExpectedExamples, hd, if_false] at he
      simp only [he]; rfl

/-- Witness of `Materialize_from_empty`: file flag `f`, directory flag `corpus`
under `TEST_SRCDIR=/src`, read as `x`, `.`, `..`. -/
theorem Materialize_from_empty_witness :
    Materialize (sampleEnv "f" "corpus" (some "/src")) []
      = .ok ["f", "/src/com_github_grpc_grpc/corpus/x"] :=
  (Materialize_from_empty (sampleEnv "f" "corpus" (some "/src")) ["x", ".", ".."]
    (fun _ => rfl)).2.1 (by decide)

/-- C9: `Materialize` returns normally only with a non-empty example list;
from an empty list it aborts exactly when the directory flag is non-empty and
the directory cannot be opened, or the file flag is empty and the directory
contributes no entry other than `.` and `..` (also when the directory flag is
empty as well). -/
theorem Materialize_never_empty :
    (∀ (env : TEnvironment) (examples_ l : List String),
        Materialize env examples_ = .ok l → l ≠ [])
      ∧ (∀ env : TEnvironment,
          (∃ a, Materialize env [] = .error a) ↔
            ((env.FLAGS_directory ≠ "" ∧ env.opendir (CorpusDirectory env) = none)
              ∨ (env.FLAGS_file = "" ∧ DirectoryContribution env = []))) := by
  refine ⟨Materialize_ok_ne_nil, ?_⟩
  intro env
  unfold Materialize DirectoryContribution
  rw [MaterializeFill_nil]
  by_cases hd : env.FLAGS_directory = "" <;> by_cases hf : env.FLAGS_file = ""
  · simp [hd, hf, isEmpty_eq_false_iff]
  · simp [hd, hf, isEmpty_eq_false_iff]
  · cases ho : env.opendir (CorpusDirectory env) with
    | none => simp [hd, hf, isEmpty_eq_false_iff]
    | some entries =>
      cases hc : CorpusEntries (CorpusDirectory env) entries <;>
        simp [hd, hf, isEmpty_eq_false_iff, hc]
  · cases ho : env.opendir (CorpusDirectory env) with
    | none => simp [hd, hf, isEmpty_eq_false_iff]
    | some entries => simp [hd, hf, isEmpty_eq_false_iff]

/-- Witness of `Materialize_never_empty`: both flags empty is an abort, a file
flag alone is a normal return with one example. -/
theorem Materialize_never_empty_witness :
    (∃ a, Materialize (sampleEnv "" "" none) [] = .error a)
      ∧ Materialize (sampleEnv "f" "" none) [] = .ok ["f"]
      ∧ ["f"] ≠ [] :=
  ⟨(Materialize_never_empty.2 (sampleEnv "" "" none)).2 (Or.inr ⟨rfl, rfl⟩), rfl,
   Materialize_never_empty.1 (sampleEnv "f" "" none) [] ["f"] rfl⟩

/-- C10: `Materialize` leaves every non-empty example list unchanged, whatever
the flags, the environment and the directory contents; so after a `Begin()`
that returned, `End()`, even under another environment, returns with the same
list, and its iterator is reached from that of `Begin()` after exactly
`size` `Advance()` steps and not before, the steps in between pointing at the
successive examples. -/
theorem Materialize_idempotent :
    (∀ (env : TEnvironment) (examples_ : List String), examples_ ≠ [] →
        Materialize env examples_ = .ok examples_)
      ∧ (∀ (self : Nat) (env env' : TEnvironment) (examples_ l : List String)
          (b : ExampleIterator),
          Begin self env examples_ = .ok (l, b) →
            Materialize env' l = .ok l
            ∧ ∃ e, End self env' l = .ok (l, e)
              ∧ (ExampleIterator.Advance^[l.length] b).Equals e = true
              ∧ ∀ n, n < l.length →
                  (ExampleIterator.Advance^[n] b).Equals e = false
                  ∧ (ExampleIterator.Advance^[n] b).Current l = l.get? n) := by
  refine ⟨Materialize_of_ne_nil, ?_⟩
  intro self env env' examples_ l b hb
  unfold Begin at hb
  cases hm : Materialize env examples_ with
  | error a => rw [hm] at hb; simp at hb
  | ok l1 =>
    rw [hm] at hb
    simp only [Except.ok.injEq, Prod.mk.injEq] at hb
    obtain ⟨hl, hbeq⟩ := hb
    subst hl
    have hne : l1 ≠ [] := Materialize_ok_ne_nil env examples_ l1 hm
    have hm' : Materialize env' l1 = .ok l1 := Materialize_of_ne_nil env' l1 hne
    refine ⟨hm', ⟨self, l1.length, l1.length⟩, ?_, ?_, ?_⟩
    · simp [End, hm']
    · rw [Advance_iterate, ← hbeq]
      simp [ExampleIterator.Equals]
    · intro n hn
      rw [Advance_iterate, ← hbeq]
      refine ⟨?_, ?_⟩
      · simp [ExampleIterator.Equals]
        omega
      · simp [ExampleIterator.Current]

/-- Witness of `Materialize_idempotent`: `Begin` on the sample corpus, then
`End` after the corpus directory has disappeared. -/
theorem Materialize_idempotent_witness :
    Materialize (sampleEnv "" "gone" none) ["f", "corpus/a.bin"]
        = .ok ["f", "corpus/a.bin"]
      ∧ Materialize (sampleEnv "" "gone" none)
          ["f", "corpus/a.bin", "corpus/b.bin", "corpus/a.bin"]
        = .ok ["f", "corpus/a.bin", "corpus/b.bin", "corpus/a.bin"] :=
  ⟨Materialize_idempotent.1 (sampleEnv "" "gone" none) ["f", "corpus/a.bin"] (by decide),
   (Materialize_idempotent.2 7 (sampleEnv "f" "corpus" none) (sampleEnv "" "gone" none) []
      ["f", "corpus/a.bin", "corpus/b.bin", "corpus/a.bin"] ⟨7, 0, 0⟩ rfl).1⟩

end FuzzerCorpus


namespace NYql.NDq

/-- A passing `YQL_ENSURE` runs the rest. -/
theorem YQL_ENSURE_true {σ α : Type} (message : String) (rest : TEffect σ α) :
    YQL_ENSURE true message rest = rest := by
  funext s; simp [YQL_ENSURE]

/-- A failing `YQL_ENSURE` throws and leaves the world alone. -/
theorem YQL_ENSURE_false {σ α : Type} (message : String) (rest : TEffect σ α) (s : σ) :
    YQL_ENSURE false message rest s = (.error (.YqlPanic message), s) := by
  simp [YQL_ENSURE]

/-- The mismatch fault of the source factory, message spelled out. -/
theorem SettingsTypeMismatch_Source (type expected actual : String) :
    SettingsTypeMismatch "Source" type expected actual
      = .YqlPanic ("Source \"" ++ type ++ "\" settings are expected to have protobuf type "
          ++ expected ++ ", but got " ++ actual) := by
  unfold SettingsTypeMismatch
  have h : "Source" ++ " \"" = "Source \"" := by decide
  rw [← h]

/-- The mismatch fault of the sink factory, message spelled out. -/
theorem SettingsTypeMismatch_Sink (type expected actual : String) :
    SettingsTypeMismatch "Sink" type expected actual
      = .YqlPanic ("Sink \"" ++ type ++ "\" settings are expected to have protobuf type "
          ++ expected ++ ", but got " ++ actual) := by
  unfold SettingsTypeMismatch
  have h : "Sink" ++ " \"" = "Sink \"" := by decide
  rw [← h]

/-- C1: for both factories, every type name, every typed creator and every
arguments value whose settings envelope is not of the registered message type
(`Is<TProtoMsg>()` false), the creator function that `Register<TProtoMsg>`
stores fails with the settings-type-mismatch fault, the world untouched, and
the typed creator is invoked zero times (its call log stays as it was); nothing
is assumed about `UnpackTo`, the check comes before it. -/
theorem TypedCreatorFunction_type_mismatch {σ κ M : Type} [TProtoMsg M] (type : String) :
    (∀ (creator : M → TSourceArguments κ → TEffect σ TSourceActorPair)
        (args : TSourceArguments κ),
        TProtoMsg.Is M args.InputDesc.GetSource.GetSettings = false →
        (∀ s, TDqSourceFactory.TypedCreatorFunction type creator args s
            = (.error (SettingsTypeMismatch "Source" type (TProtoMsg.full_name M)
                args.InputDesc.GetSource.GetSettings.type_url), s))
        ∧ (∀ s log, TDqSourceFactory.TypedCreatorFunction type (TracedTyped creator) args
              (s, log)
            = (.error (SettingsTypeMismatch "Source" type (TProtoMsg.full_name M)
                args.InputDesc.GetSource.GetSettings.type_url), (s, log))))
      ∧ (∀ (creator : M → TSinkArguments κ → TEffect σ TSinkActorPair)
          (args : TSinkArguments κ),
          TProtoMsg.Is M args.OutputDesc.GetSink.GetSettings = false →
          (∀ s, TDqSinkFactory.TypedCreatorFunction type creator args s
              = (.error (SettingsTypeMismatch "Sink" type (TProtoMsg.full_name M)
                  args.OutputDesc.GetSink.GetSettings.type_url), s))
          ∧ (∀ s log, TDqSinkFactory.TypedCreatorFunction type (TracedTyped creator) args
                (s, log)
              = (.error (SettingsTypeMismatch "Sink" type (TProtoMsg.full_name M)
                  args.OutputDesc.GetSink.GetSettings.type_url), (s, log)))) := by
  refine ⟨?_, ?_⟩
  · intro creator args his
    refine ⟨?_, ?_⟩
    · intro s
      simp only [TDqSourceFactory.TypedCreatorFunction, his, YQL_ENSURE_false,
        SettingsTypeMismatch_Source]
    · intro s log
      simp only [TDqSourceFactory.TypedCreatorFunction, his, YQL_ENSURE_false,
        SettingsTypeMismatch_Source]
  · intro creator args his
    refine ⟨?_, ?_⟩
    · intro s
      simp only [TDqSinkFactory.TypedCreatorFunction, his, YQL_ENSURE_false,
        SettingsTypeMismatch_Sink]
    · intro s log
      simp only [TDqSinkFactory.TypedCreatorFunction, his, YQL_ENSURE_false,
        SettingsTypeMismatch_Sink]

/-- Witness of `TypedCreatorFunction_type_mismatch`: a `csv` source handed
settings of another type that would decode; the log of the creator stays
empty. -/
theorem TypedCreatorFunction_type_mismatch_witness :
    TDqSourceFactory.TypedCreatorFunction "csv" (TracedTyped csvCreator)
        (sourceArgs "csv" "type.googleapis.com/NYql.TJsonSettings" [44]) (10, [])
      = (.error (SettingsTypeMismatch "Source" "csv" "NYql.TCsvSettings"
          "type.googleapis.com/NYql.TJsonSettings"), (10, [])) :=
  ((TypedCreatorFunction_type_mismatch "csv").1 csvCreator
    (sourceArgs "csv" "type.googleapis.com/NYql.TJsonSettings" [44]) (by decide)).2 10 []

/-- C2: for both factories, when the settings envelope of the arguments is the
encoding of a settings value `S` (`Is<TProtoMsg>()` holds and `UnpackTo` yields
`S`), the creator function that `Register<TProtoMsg>` stores does exactly what
the typed creator does on `S` and the same arguments: same actor pair or
fault, same world; and the typed creator is invoked exactly once, with `S` and
those arguments (one entry more in its call log). -/
theorem TypedCreatorFunction_round_trip {σ κ M : Type} [TProtoMsg M] (type : String) (S : M) :
    (∀ (creator : M → TSourceArguments κ → TEffect σ TSourceActorPair)
        (args : TSourceArguments κ),
        TProtoMsg.Is M args.InputDesc.GetSource.GetSettings = true →
        TProtoMsg.UnpackTo args.InputDesc.GetSource.GetSettings = (true, S) →
        (∀ s, TDqSourceFactory.TypedCreatorFunction type creator args s = creator S args s)
        ∧ (∀ s log, TDqSourceFactory.TypedCreatorFunction type (TracedTyped creator) args
              (s, log)
            = ((creator S args s).1, ((creator S args s).2, log ++ [(S, args)]))))
      ∧ (∀ (creator : M → TSinkArguments κ → TEffect σ TSinkActorPair)
          (args : TSinkArguments κ),
          TProtoMsg.Is M args.OutputDesc.GetSink.GetSettings = true →
          TProtoMsg.UnpackTo args.OutputDesc.GetSink.GetSettings = (true, S) →
          (∀ s, TDqSinkFactory.TypedCreatorFunction type creator args s = creator S args s)
          ∧ (∀ s log, TDqSinkFactory.TypedCreatorFunction type (TracedTyped creator) args
                (s, log)
              = ((creator S args s).1, ((creator S args s).2, log ++ [(S, args)])))) := by
  refine ⟨?_, ?_⟩
  · intro creator args his hun
    refine ⟨?_, ?_⟩
    · intro s
      simp only [TDqSourceFactory.TypedCreatorFunction, his, hun, YQL_ENSURE_true]
    · intro s log
      simp only [TDqSourceFactory.TypedCreatorFunction, his, hun, YQL_ENSURE_true,
        TracedTyped]
  · intro creator args his hun
    refine ⟨?_, ?_⟩
    · intro s
      simp only [TDqSinkFactory.TypedCreatorFunction, his, hun, YQL_ENSURE_true]
    · intro s log
      simp only [TDqSinkFactory.TypedCreatorFunction, his, hun, YQL_ENSURE_true,
        TracedTyped]

/-- Witness of `TypedCreatorFunction_round_trip`: a `csv` sink handed the
encoding of the settings with delimiter 44. -/
theorem TypedCreatorFunction_round_trip_witness :
    TDqSinkFactory.TypedCreatorFunction "csv" (TracedTyped csvCreator)
        (sinkArgs "csv" csvUrl [44]) (10, [])
      = (.ok (54, 55), (12, [({ delimiter := 44 }, sinkArgs "csv" csvUrl [44])])) :=
  ((TypedCreatorFunction_round_trip "csv" (TCsvSettings.mk 44)).2 csvCreator
    (sinkArgs "csv" csvUrl [44]) (by decide) (by decide)).2 10 []

/-- C3: for both factories, when the settings envelope has the expected type
(`Is<TProtoMsg>()` true) but does not deserialize (`UnpackTo` returns false),
the creator function that `Register<TProtoMsg>` stores fails with the
settings-decode-failure fault, whose message is
`Failed to unpack settings of type "<type>"`, and the typed creator is not
invoked (world and call log untouched). -/
theorem TypedCreatorFunction_decode_failure {σ κ M : Type} [TProtoMsg M] (type : String) :
    (∀ (creator : M → TSourceArguments κ → TEffect σ TSourceActorPair)
        (args : TSourceArguments κ),
        TProtoMsg.Is M args.InputDesc.GetSource.GetSettings = true →
        (TProtoMsg.UnpackTo args.InputDesc.GetSource.GetSettings : Bool × M).1 = false →
        (∀ s, TDqSourceFactory.TypedCreatorFunction type creator args s
            = (.error (.YqlPanic ("Failed to unpack settings of type \"" ++ type ++ "\"")), s))
        ∧ (∀ s log, TDqSourceFactory.TypedCreatorFunction type (TracedTyped creator) args
              (s, log)
            = (.error (SettingsDecodeFailure type), (s, log))))
      ∧ (∀ (creator : M → TSinkArguments κ → TEffect σ TSinkActorPair)
          (args : TSinkArguments κ),
          TProtoMsg.Is M args.OutputDesc.GetSink.GetSettings = true →
          (TProtoMsg.UnpackTo args.OutputDesc.GetSink.GetSettings : Bool × M).1 = false →
          (∀ s, TDqSinkFactory.TypedCreatorFunction type creator args s
              = (.error (.YqlPanic ("Failed to unpack settings of type \"" ++ type ++ "\"")), s))
          ∧ (∀ s log, TDqSinkFactory.TypedCreatorFunction type (TracedTyped creator) args
                (s, log)
              = (.error (SettingsDecodeFailure type), (s, log)))) := by
  refine ⟨?_, ?_⟩
  · intro creator args his hun
    refine ⟨?_, ?_⟩
    · intro s
      simp only [TDqSourceFactory.TypedCreatorFunction, his, hun, YQL_ENSURE_true,
        YQL_ENSURE_false]
    · intro s log
      simp only [TDqSourceFactory.TypedCreatorFunction, his, hun, YQL_ENSURE_true,
        YQL_ENSURE_false, SettingsDecodeFailure]
  · intro creator args his hun
    refine ⟨?_, ?_⟩
    · intro s
      simp only [TDqSinkFactory.TypedCreatorFunction, his, hun, YQL_ENSURE_true,
        YQL_ENSURE_false]
    · intro s log
      simp only [TDqSinkFactory.TypedCreatorFunction, his, hun, YQL_ENSURE_true,
        YQL_ENSURE_false, SettingsDecodeFailure]

/-- Witness of `TypedCreatorFunction_decode_failure`: a `csv` source handed an
envelope of the right type whose payload is two bytes long. -/
theorem TypedCreatorFunction_decode_failure_witness :
    TDqSourceFactory.TypedCreatorFunction "csv" (TracedTyped csvCreator)
        (sourceArgs "csv" csvUrl [44, 45]) (10, [])
      = (.error (SettingsDecodeFailure "csv"), (10, [])) :=
  ((TypedCreatorFunction_decode_failure "csv").1 csvCreator
    (sourceArgs "csv" csvUrl [44, 45]) (by decide) (by decide)).2 10 []

/-- C8: the type-mismatch fault of a creator function stored by
`Register<TProtoMsg>(type, ...)` has the message `Source "<type>" settings are
expected to have protobuf type <full name of TProtoMsg>, but got <type_url of
the envelope>` for the source factory and the same text with `Sink` in front
for the sink factory: registered type name, expected type and actual type. -/
theorem TypedCreatorFunction_mismatch_message {σ κ M : Type} [TProtoMsg M] (type : String) :
    (∀ (creator : M → TSourceArguments κ → TEffect σ TSourceActorPair)
        (args : TSourceArguments κ) (s : σ),
        TProtoMsg.Is M args.InputDesc.GetSource.GetSettings = false →
        TDqSourceFactory.TypedCreatorFunction type creator args s
          = (.error (.YqlPanic
              ("Source \"" ++ type ++ "\" settings are expected to have protobuf type "
                ++ TProtoMsg.full_name M ++ ", but got "
                ++ args.InputDesc.GetSource.GetSettings.type_url)), s))
      ∧ (∀ (creator : M → TSinkArguments κ → TEffect σ TSinkActorPair)
          (args : TSinkArguments κ) (s : σ),
          TProtoMsg.Is M args.OutputDesc.GetSink.GetSettings = false →
          TDqSinkFactory.TypedCreatorFunction type creator args s
            = (.error (.YqlPanic
                ("Sink \"" ++ type ++ "\" settings are expected to have protobuf type "
                  ++ TProtoMsg.full_name M ++ ", but got "
                  ++ args.OutputDesc.GetSink.GetSettings.type_url)), s)) := by
  refine ⟨?_, ?_⟩
  · intro creator args s his
    simp only [TDqSourceFactory.TypedCreatorFunction, his, YQL_ENSURE_false]
  · intro creator args s his
    simp only [TDqSinkFactory.TypedCreatorFunction, his, YQL_ENSURE_false]

/-- Witness of `TypedCreatorFunction_mismatch_message`: the text for a `csv`
sink handed `TJsonSettings`. -/
theorem TypedCreatorFunction_mismatch_message_witness :
    TDqSinkFactory.TypedCreatorFunction "csv" csvCreator
        (sinkArgs "csv" "type.googleapis.com/NYql.TJsonSettings" []) 10
      = (.error (.YqlPanic
          "Sink \"csv\" settings are expected to have protobuf type NYql.TCsvSettings, but got type.googleapis.com/NYql.TJsonSettings"), 10) :=
  (TypedCreatorFunction_mismatch_message "csv").2 csvCreator
    (sinkArgs "csv" "type.googleapis.com/NYql.TJsonSettings" []) 10 (by decide)

/-- Lookup in a map extended at the end. -/
theorem FindPtr_append {V : Type} (m : THashMap V) (t : String) (c : V) (k : String) :
    THashMap.FindPtr (m ++ [(t, c)]) k
      = match THashMap.FindPtr m k with
        | some v => some v
        | none => if t = k then some c else none := by
  induction m with
  | nil => simp [THashMap.FindPtr]
  | cons e rest ih =>
    obtain ⟨k1, v1⟩ := e
    by_cases h : k1 = k
    · simp [THashMap.FindPtr, h]
    · simp only [List.cons_append, THashMap.FindPtr, h, if_false]
      exact ih

/-- A lookup misses exactly on the names that are not keys. -/
theorem FindPtr_eq_none_iff {V : Type} (m : THashMap V) (k : String) :
    THashMap.FindPtr m k = none ↔ k ∉ m.map Prod.fst := by
  induction m with
  | nil => simp [THashMap.FindPtr]
  | cons e rest ih =>
    obtain ⟨k1, v1⟩ := e
    by_cases h : k1 = k
    · simp [THashMap.FindPtr, h]
    · simp only [THashMap.FindPtr, h, if_false, List.map_cons, List.mem_cons, not_or]
      rw [ih]
      constructor
      · intro hk; exact ⟨fun hkk => h hkk.symm, hk⟩
      · intro hk; exact hk.2

/-- Lookup in a traced map: the traced version of what the map holds. -/
theorem FindPtr_TracedMap {σ A π : Type} (m : THashMap (A → TEffect σ π)) (k : String) :
    THashMap.FindPtr (TracedMap m) k = (THashMap.FindPtr m k).map (Traced k) := by
  induction m with
  | nil => simp [TracedMap, THashMap.FindPtr]
  | cons e rest ih =>
    obtain ⟨k1, v1⟩ := e
    by_cases h : k1 = k
    · simp [TracedMap, THashMap.FindPtr, h]
    · have ih1 : THashMap.FindPtr (List.map (fun e => (e.1, Traced e.1 e.2)) rest) k
          = (THashMap.FindPtr rest k).map (Traced k) := ih
      simp [TracedMap, THashMap.FindPtr, h, ih1]

/-- C4: `Create` of both factories (`CreateDqSourceActor`, `CreateDqSink`)
looks up the type name of the arguments' descriptor in `CreatorsByType`. When
the name is not a registered key it fails with `UnknownConnectorType` naming
that type and invokes no creator (world and call log untouched); otherwise it
does exactly what the creator registered under that key does on the same
arguments, returns its result, and that creator is the only one invoked, once. -/
theorem Create_dispatch {σ κ : Type} :
    (∀ (self : TDqSourceFactory σ κ) (args : TSourceArguments κ),
        (args.InputDesc.GetSource.GetType ∉ self.CreatorsByType.map Prod.fst →
          (∀ s, self.CreateDqSourceActor args s
              = (.error (.UnknownConnectorType args.InputDesc.GetSource.GetType), s))
          ∧ (∀ s log, self.Traced.CreateDqSourceActor args (s, log)
              = (.error (.UnknownConnectorType args.InputDesc.GetSource.GetType), (s, log))))
        ∧ (∀ creator,
            THashMap.FindPtr self.CreatorsByType args.InputDesc.GetSource.GetType
              = some creator →
            (∀ s, self.CreateDqSourceActor args s = creator args s)
            ∧ (∀ s log, self.Traced.CreateDqSourceActor args (s, log)
                = ((creator args s).1, ((creator args s).2,
                    log ++ [(args.InputDesc.GetSource.GetType, args)])))))
      ∧ (∀ (self : TDqSinkFactory σ κ) (args : TSinkArguments κ),
          (args.OutputDesc.GetSink.GetType ∉ self.CreatorsByType.map Prod.fst →
            (∀ s, self.CreateDqSink args s
                = (.error (.UnknownConnectorType args.OutputDesc.GetSink.GetType), s))
            ∧ (∀ s log, self.Traced.CreateDqSink args (s, log)
                = (.error (.UnknownConnectorType args.OutputDesc.GetSink.GetType), (s, log))))
          ∧ (∀ creator,
              THashMap.FindPtr self.CreatorsByType args.OutputDesc.GetSink.GetType
                = some creator →
              (∀ s, self.CreateDqSink args s = creator args s)
              ∧ (∀ s log, self.Traced.CreateDqSink args (s, log)
                  = ((creator args s).1, ((creator args s).2,
                      log ++ [(args.OutputDesc.GetSink.GetType, args)]))))) := by
  refine ⟨?_, ?_⟩
  · intro self args
    refine ⟨?_, ?_⟩
    · intro hkey
      have hnone := (FindPtr_eq_none_iff _ _).2 hkey
      refine ⟨?_, ?_⟩
      · intro s
        simp only [TDqSourceFactory.CreateDqSourceActor, hnone]
      · intro s log
        simp only [TDqSourceFactory.CreateDqSourceActor, TDqSourceFactory.Traced,
          FindPtr_TracedMap, hnone, Option.map_none']
    · intro creator hsome
      refine ⟨?_, ?_⟩
      · intro s
        simp only [TDqSourceFactory.CreateDqSourceActor, hsome]
      · intro s log
        simp only [TDqSourceFactory.CreateDqSourceActor, TDqSourceFactory.Traced,
          FindPtr_TracedMap, hsome, Option.map_some', Traced]
  · intro self args
    refine ⟨?_, ?_⟩
    · intro hkey
      have hnone := (FindPtr_eq_none_iff _ _).2 hkey
      refine ⟨?_, ?_⟩
      · intro s
        simp only [TDqSinkFactory.CreateDqSink, hnone]
      · intro s log
        simp only [TDqSinkFactory.CreateDqSink, TDqSinkFactory.Traced,
          FindPtr_TracedMap, hnone, Option.map_none']
    · intro creator hsome
      refine ⟨?_, ?_⟩
      · intro s
        simp only [TDqSinkFactory.CreateDqSink, hsome]
      · intro s log
        simp only [TDqSinkFactory.CreateDqSink, TDqSinkFactory.Traced,
          FindPtr_TracedMap, hsome, Option.map_some', Traced]

/-- Witness of `Create_dispatch`: a source registry holding only `csv` fails
with `UnknownConnectorType("json")` for `json` and creates for `csv`. -/
theorem Create_dispatch_witness :
    csvSourceFactory.CreateDqSourceActor (sourceArgs "json" csvUrl [44]) 10
        = (.error (.UnknownConnectorType "json"), 10)
      ∧ csvSourceFactory.Traced.CreateDqSourceActor (sourceArgs "csv" csvUrl [44]) (10, [])
        = (.ok (54, 55), (12, [("csv", sourceArgs "csv" csvUrl [44])])) :=
  ⟨((Create_dispatch.1 csvSourceFactory (sourceArgs "json" csvUrl [44])).1
      (by decide)).1 10,
   ((Create_dispatch.1 csvSourceFactory (sourceArgs "csv" csvUrl [44])).2
      (TDqSourceFactory.TypedCreatorFunction "csv" csvCreator) rfl).2 10 []⟩

/-- Registering under a key the map already holds is the fault. -/
theorem RegisterCreator_dup {V : Type} (m : THashMap V) (type : String) (creator c0 : V)
    (h : THashMap.FindPtr m type = some c0) :
    RegisterCreator m type creator = .error (.DuplicateRegistration type) := by
  simp only [RegisterCreator, h]

/-- Registering under a fresh key appends the entry. -/
theorem RegisterCreator_fresh {V : Type} (m : THashMap V) (type : String) (creator : V)
    (h : THashMap.FindPtr m type = none) :
    RegisterCreator m type creator = .ok (m ++ [(type, creator)]) := by
  simp only [RegisterCreator, h]

/-- Registrations whose keys are fresh and pairwise different all go through. -/
theorem RegisterCreators_nodup {V : Type} (regs : List (String × V)) (m : THashMap V)
    (h : ((m ++ regs).map Prod.fst).Nodup) :
    RegisterCreators m regs = .ok (m ++ regs) := by
  induction regs generalizing m with
  | nil => simp [RegisterCreators]
  | cons e rest ih =>
    obtain ⟨t, c⟩ := e
    have hfresh : THashMap.FindPtr m t = none := by
      rw [FindPtr_eq_none_iff]
      intro hmem
      rw [List.map_append, List.nodup_append] at h
      exact h.2.2 hmem (by simp)
    have hrest : RegisterCreators (m ++ [(t, c)]) rest = .ok ((m ++ [(t, c)]) ++ rest) := by
      apply ih
      rw [List.append_assoc]
      exact h
    simp only [RegisterCreators, RegisterCreator_fresh m t c hfresh, hrest]
    simp

/-- The first registration under a key seen before is the fault, naming it. -/
theorem RegisterCreators_dup {V : Type} (pre : List (String × V)) (m : THashMap V)
    (k : String) (c : V) (post : List (String × V))
    (h : ((m ++ pre).map Prod.fst).Nodup) (hk : k ∈ (m ++ pre).map Prod.fst) :
    RegisterCreators m (pre ++ (k, c) :: post) = .error (.DuplicateRegistration k) := by
  induction pre generalizing m with
  | nil =>
    rw [List.append_nil] at hk
    cases hf : THashMap.FindPtr m k with
    | none => exact absurd hk ((FindPtr_eq_none_iff m k).1 hf)
    | some c0 => simp only [List.nil_append, RegisterCreators, RegisterCreator_dup m k c c0 hf]
  | cons e rest ih =>
    obtain ⟨t, c1⟩ := e
    have hfresh : THashMap.FindPtr m t = none := by
      rw [FindPtr_eq_none_iff]
      intro hmem
      rw [List.map_append, List.nodup_append] at h
      exact h.2.2 hmem (by simp)
    have hrest : RegisterCreators (m ++ [(t, c1)]) (rest ++ (k, c) :: post)
        = .error (.DuplicateRegistration k) := by
      apply ih
      · rw [List.append_assoc]; exact h
      · rw [List.append_assoc]; exact hk
    show RegisterCreators m ((t, c1) :: (rest ++ (k, c) :: post)) = _
    simp only [RegisterCreators, RegisterCreator_fresh m t c1 hfresh, hrest]

/-- A list of registrations with a repeated key splits at the first
registration whose key was seen before. -/
theorem exists_first_repeat {V : Type} (regs : List (String × V))
    (h : ¬ (regs.map Prod.fst).Nodup) :
    ∃ pre k c post, regs = pre ++ (k, c) :: post ∧ (pre.map Prod.fst).Nodup
      ∧ k ∈ pre.map Prod.fst := by
  induction regs using List.reverseRecOn with
  | nil => simp at h
  | append_singleton l e ih =>
    by_cases hl : (l.map Prod.fst).Nodup
    · refine ⟨l, e.1, e.2, [], rfl, hl, ?_⟩
      by_contra hmem
      apply h
      rw [List.map_append, List.nodup_append]
      refine ⟨hl, by simp, ?_⟩
      intro a ha hb
      simp only [List.map_cons, List.map_nil, List.mem_singleton] at hb
      exact hmem (hb ▸ ha)
    · obtain ⟨pre, k, c, post, heq, hnd, hk⟩ := ih hl
      exact ⟨pre, k, c, post ++ [e], by rw [heq]; simp, hnd, hk⟩

/-- The source `RegisterAll` is `RegisterCreators` on the member. -/
theorem Source_RegisterAll_eq {σ κ : Type}
    (regs : List (String × TSourceCreatorFunction σ κ)) (self : TDqSourceFactory σ κ) :
    self.RegisterAll regs
      = match RegisterCreators self.CreatorsByType regs with
        | .error f => .error f
        | .ok m => .ok { CreatorsByType := m } := by
  induction regs generalizing self with
  | nil => simp [TDqSourceFactory.RegisterAll, RegisterCreators]
  | cons e rest ih =>
    obtain ⟨t, c⟩ := e
    simp only [TDqSourceFactory.RegisterAll, TDqSourceFactory.Register, RegisterCreators]
    cases RegisterCreator self.CreatorsByType t c with
    | error f => rfl
    | ok m => exact ih { CreatorsByType := m }

/-- The sink `RegisterAll` is `RegisterCreators` on the member. -/
theorem Sink_RegisterAll_eq {σ κ : Type}
    (regs : List (String × TSinkCreatorFunction σ κ)) (self : TDqSinkFactory σ κ) :
    self.RegisterAll regs
      = match RegisterCreators self.CreatorsByType regs with
        | .error f => .error f
        | .ok m => .ok { CreatorsByType := m } := by
  induction regs generalizing self with
  | nil => simp [TDqSinkFactory.RegisterAll, RegisterCreators]
  | cons e rest ih =>
    obtain ⟨t, c⟩ := e
    simp only [TDqSinkFactory.RegisterAll, TDqSinkFactory.Register, RegisterCreators]
    cases RegisterCreator self.CreatorsByType t c with
    | error f => rfl
    | ok m => exact ih { CreatorsByType := m }

/-- What `Register` does on a map, both cases, and what a sequence of
registrations with a repeated key comes to. -/
theorem RegisterCreator_spec {V : Type} :
    (∀ (m : THashMap V) (type : String) (creator c0 : V),
        THashMap.FindPtr m type = some c0 →
        RegisterCreator m type creator = .error (.DuplicateRegistration type))
      ∧ (∀ (m : THashMap V) (type : String) (creator : V),
          THashMap.FindPtr m type = none →
          ∃ m1, RegisterCreator m type creator = .ok m1
            ∧ THashMap.FindPtr m1 type = some creator
            ∧ ∀ k, k ≠ type → THashMap.FindPtr m1 k = THashMap.FindPtr m k)
      ∧ (∀ regs : List (String × V), ¬ (regs.map Prod.fst).Nodup →
          ∃ pre k c post, regs = pre ++ (k, c) :: post ∧ k ∈ pre.map Prod.fst
            ∧ RegisterCreators [] pre = .ok pre
            ∧ RegisterCreators [] regs = .error (.DuplicateRegistration k)) := by
  refine ⟨RegisterCreator_dup, ?_, ?_⟩
  · intro m type creator hnone
    refine ⟨m ++ [(type, creator)], RegisterCreator_fresh m type creator hnone, ?_, ?_⟩
    · rw [FindPtr_append, hnone]; simp
    · intro k hk
      rw [FindPtr_append]
      cases THashMap.FindPtr m k with
      | some v => rfl
      | none => simp [Ne.symm hk]
  · intro regs hrep
    obtain ⟨pre, k, c, post, heq, hnd, hk⟩ := exists_first_repeat regs hrep
    refine ⟨pre, k, c, post, heq, hk, ?_, ?_⟩
    · have := RegisterCreators_nodup pre [] (by simpa using hnd)
      simpa using this
    · rw [heq]
      exact RegisterCreators_dup pre [] k c post (by simpa using hnd) (by simpa using hk)

/-- A successful `Register<TProtoMsg>` leaves the lambda under the type name,
in both factories. -/
theorem RegisterTyped_stores {σ κ M : Type} [TProtoMsg M] (type : String) :
    (∀ (self self1 : TDqSourceFactory σ κ)
        (creator : M → TSourceArguments κ → TEffect σ TSourceActorPair),
        self.RegisterTyped type creator = .ok self1 →
        THashMap.FindPtr self1.CreatorsByType type
          = some (TDqSourceFactory.TypedCreatorFunction type creator))
      ∧ (∀ (self self1 : TDqSinkFactory σ κ)
          (creator : M → TSinkArguments κ → TEffect σ TSinkActorPair),
          self.RegisterTyped type creator = .ok self1 →
          THashMap.FindPtr self1.CreatorsByType type
            = some (TDqSinkFactory.TypedCreatorFunction type creator)) := by
  refine ⟨?_, ?_⟩
  · intro self self1 creator h
    simp only [TDqSourceFactory.RegisterTyped, TDqSourceFactory.Register] at h
    cases hf : THashMap.FindPtr self.CreatorsByType type with
    | some c0 => simp [RegisterCreator, hf] at h
    | none =>
      simp only [RegisterCreator, hf, Except.ok.injEq] at h
      rw [← h, FindPtr_append, hf]; simp
  · intro self self1 creator h
    simp only [TDqSinkFactory.RegisterTyped, TDqSinkFactory.Register] at h
    cases hf : THashMap.FindPtr self.CreatorsByType type with
    | some c0 => simp [RegisterCreator, hf] at h
    | none =>
      simp only [RegisterCreator, hf, Except.ok.injEq] at h
      rw [← h, FindPtr_append, hf]; simp

/-- C5: for both factories, `Register(type_name, creator)` on a registry that
already holds a creator under `type_name` signals `DuplicateRegistration` for
that name and overwrites nothing; on a fresh name it adds exactly that key,
mapped to `creator`, and leaves every other lookup as it was; and every
sequence of registrations with a repeated key, run from the empty registry,
stops with `DuplicateRegistration` at the first registration whose key was
registered before, the registry built until then holding the earlier
registrations unchanged. -/
theorem Register_duplicate {σ κ : Type} :
    ((∀ (self : TDqSourceFactory σ κ) (type : String)
          (creator c0 : TSourceCreatorFunction σ κ),
          THashMap.FindPtr self.CreatorsByType type = some c0 →
          self.Register type creator = .error (.DuplicateRegistration type))
      ∧ (∀ (self : TDqSourceFactory σ κ) (type : String)
          (creator : TSourceCreatorFunction σ κ),
          THashMap.FindPtr self.CreatorsByType type = none →
          ∃ self1, self.Register type creator = .ok self1
            ∧ THashMap.FindPtr self1.CreatorsByType type = some creator
            ∧ ∀ k, k ≠ type →
                THashMap.FindPtr self1.CreatorsByType k
                  = THashMap.FindPtr self.CreatorsByType k)
      ∧ (∀ regs : List (String × TSourceCreatorFunction σ κ),
          ¬ (regs.map Prod.fst).Nodup →
          ∃ pre k c post, regs = pre ++ (k, c) :: post ∧ k ∈ pre.map Prod.fst
            ∧ TDqSourceFactory.RegisterAll { CreatorsByType := [] } pre
                = .ok { CreatorsByType := pre }
            ∧ TDqSourceFactory.RegisterAll { CreatorsByType := [] } regs
                = .error (.DuplicateRegistration k)))
    ∧ ((∀ (self : TDqSinkFactory σ κ) (type : String)
          (creator c0 : TSinkCreatorFunction σ κ),
          THashMap.FindPtr self.CreatorsByType type = some c0 →
          self.Register type creator = .error (.DuplicateRegistration type))
      ∧ (∀ (self : TDqSinkFactory σ κ) (type : String)
          (creator : TSinkCreatorFunction σ κ),
          THashMap.FindPtr self.CreatorsByType type = none →
          ∃ self1, self.Register type creator = .ok self1
            ∧ THashMap.FindPtr self1.CreatorsByType type = some creator
            ∧ ∀ k, k ≠ type →
                THashMap.FindPtr self1.CreatorsByType k
                  = THashMap.FindPtr self.CreatorsByType k)
      ∧ (∀ regs : List (String × TSinkCreatorFunction σ κ),
          ¬ (regs.map Prod.fst).Nodup →
          ∃ pre k c post, regs = pre ++ (k, c) :: post ∧ k ∈ pre.map Prod.fst
            ∧ TDqSinkFactory.RegisterAll { CreatorsByType := [] } pre
                = .ok { CreatorsByType := pre }
            ∧ TDqSinkFactory.RegisterAll { CreatorsByType := [] } regs
                = .error (.DuplicateRegistration k))) := by
  refine ⟨⟨?_, ?_, ?_⟩, ⟨?_, ?_, ?_⟩⟩
  · intro self type creator c0 h
    simp only [TDqSourceFactory.Register, RegisterCreator_dup _ type creator c0 h]
  · intro self type creator h
    obtain ⟨m1, hreg, hnew, hold⟩ := RegisterCreator_spec.2.1 self.CreatorsByType type creator h
    refine ⟨{ CreatorsByType := m1 }, ?_, hnew, hold⟩
    simp only [TDqSourceFactory.Register, hreg]
  · intro regs hrep
    obtain ⟨pre, k, c, post, heq, hk, hpre, hall⟩ := RegisterCreator_spec.2.2 regs hrep
    refine ⟨pre, k, c, post, heq, hk, ?_, ?_⟩
    · rw [Source_RegisterAll_eq]; simp only [hpre]
    · rw [Source_RegisterAll_eq]; simp only [hall]
  · intro self type creator c0 h
    simp only [TDqSinkFactory.Register, RegisterCreator_dup _ type creator c0 h]
  · intro self type creator h
    obtain ⟨m1, hreg, hnew, hold⟩ := RegisterCreator_spec.2.1 self.CreatorsByType type creator h
    refine ⟨{ CreatorsByType := m1 }, ?_, hnew, hold⟩
    simp only [TDqSinkFactory.Register, hreg]
  · intro regs hrep
    obtain ⟨pre, k, c, post, heq, hk, hpre, hall⟩ := RegisterCreator_spec.2.2 regs hrep
    refine ⟨pre, k, c, post, heq, hk, ?_, ?_⟩
    · rw [Sink_RegisterAll_eq]; simp only [hpre]
    · rw [Sink_RegisterAll_eq]; simp only [hall]

/-- Witness of `Register_duplicate`: a second `csv` on the sample source
factory is the fault; `json` on it is accepted and found afterwards. -/
theorem Register_duplicate_witness :
    csvSourceFactory.Register "csv" (fun _ s => (.ok (0, 0), s))
        = .error (.DuplicateRegistration "csv")
      ∧ ∃ self1, csvSourceFactory.Register "json" (fun _ s => (.ok (0, 0), s)) = .ok self1
          ∧ THashMap.FindPtr self1.CreatorsByType "json" = some (fun _ s => (.ok (0, 0), s))
          ∧ ∀ k, k ≠ "json" →
              THashMap.FindPtr self1.CreatorsByType k
                = THashMap.FindPtr csvSourceFactory.CreatorsByType k :=
  ⟨Register_duplicate.1.1 csvSourceFactory "csv" (fun _ s => (.ok (0, 0), s))
      (TDqSourceFactory.TypedCreatorFunction "csv" csvCreator) rfl,
   Register_duplicate.1.2.1 csvSourceFactory "json" (fun _ s => (.ok (0, 0), s)) rfl⟩

end NYql.NDq

namespace NKikimr.NGRpcService

/-- There is one sub-batch per partition. -/
theorem SplitBatch_length (partitions : List TPartition) (batch : TRecordBatch) :
    (SplitBatch partitions batch).1.length = partitions.length := by
  induction partitions generalizing batch with
  | nil => rfl
  | cons p rest ih => simp [SplitBatch, ih]

/-- The sub-batches and the unrouted rows together are the batch, rearranged. -/
theorem SplitBatch_perm (partitions : List TPartition) (batch : TRecordBatch) :
    ((SplitBatch partitions batch).1.flatten ++ (SplitBatch partitions batch).2).Perm batch := by
  induction partitions generalizing batch with
  | nil => simp [SplitBatch]
  | cons p rest ih =>
    simp only [SplitBatch, List.flatten_cons, List.append_assoc]
    have h1 := ih (batch.filter (fun row => !p.Range.Contains row.Key))
    have h2 : (batch.filter (fun row => p.Range.Contains row.Key)
        ++ batch.filter (fun row => !p.Range.Contains row.Key)).Perm batch :=
      List.filter_append_perm (fun row => p.Range.Contains row.Key) batch
    exact (List.Perm.append_left _ h1).trans h2

/-- The unrouted rows are the rows whose key falls in no range. -/
theorem mem_SplitBatch_unrouted (partitions : List TPartition) (batch : TRecordBatch)
    (row : TRow) :
    row ∈ (SplitBatch partitions batch).2
      ↔ row ∈ batch ∧ FindPartition partitions row.Key = none := by
  induction partitions generalizing batch with
  | nil => simp [SplitBatch, FindPartition]
  | cons p rest ih =>
    simp only [SplitBatch, FindPartition]
    rw [ih]
    by_cases hc : p.Range.Contains row.Key = true
    · simp [List.mem_filter, hc]
    · simp [List.mem_filter, hc]

/-- The sub-batch of partition `i` holds the rows of the batch that `i` owns. -/
theorem mem_SplitBatch_sub (partitions : List TPartition) (batch : TRecordBatch)
    (row : TRow) (i : Nat) (sub : TRecordBatch)
    (hsub : (SplitBatch partitions batch).1.get? i = some sub) :
    row ∈ sub ↔ row ∈ batch ∧ FindPartition partitions row.Key = some i := by
  induction partitions generalizing batch i with
  | nil => simp [SplitBatch] at hsub
  | cons p rest ih =>
    cases i with
    | zero =>
      simp only [SplitBatch, List.get?_cons_zero, Option.some.injEq] at hsub
      subst hsub
      by_cases hc : p.Range.Contains row.Key = true
      · simp [List.mem_filter, FindPartition, hc]
      · simp [List.mem_filter, FindPartition, hc]
    | succ j =>
      simp only [SplitBatch, List.get?_cons_succ] at hsub
      rw [ih _ j hsub]
      by_cases hc : p.Range.Contains row.Key = true
      · simp [List.mem_filter, FindPartition, hc]
      · simp [List.mem_filter, FindPartition, hc]

/-- The owner found for a key is a partition of the list whose range contains
the key. -/
theorem FindPartition_some (partitions : List TPartition) (key : Int) (i : Nat)
    (h : FindPartition partitions key = some i) :
    ∃ p, partitions.get? i = some p ∧ p.Range.Contains key = true := by
  induction partitions generalizing i with
  | nil => simp [FindPartition] at h
  | cons p rest ih =>
    by_cases hc : p.Range.Contains key = true
    · simp only [FindPartition, hc, if_true, Option.some.injEq] at h
      subst h
      exact ⟨p, rfl, hc⟩
    · simp only [FindPartition, hc] at h
      cases hr : FindPartition rest key with
      | none => rw [hr] at h; simp at h
      | some j =>
        rw [hr] at h
        simp only [Bool.false_eq_true, if_false, Option.map_some', Option.some.injEq] at h
        subst h
        exact ih j hr

/-- A key that some range contains has an owner. -/
theorem FindPartition_of_covered (partitions : List TPartition) (key : Int)
    (h : ∃ p ∈ partitions, p.Range.Contains key = true) :
    ∃ i, FindPartition partitions key = some i := by
  induction partitions with
  | nil => obtain ⟨p, hp, _⟩ := h; simp at hp
  | cons p rest ih =>
    by_cases hc : p.Range.Contains key = true
    · exact ⟨0, by simp [FindPartition, hc]⟩
    · obtain ⟨q, hq, hqc⟩ := h
      have hq1 : q ∈ rest := by
        rcases List.mem_cons.1 hq with heq | hmem
        · subst heq; exact absurd hqc hc
        · exact hmem
      obtain ⟨j, hj⟩ := ih ⟨q, hq1, hqc⟩
      exact ⟨j + 1, by simp [FindPartition, hc, hj]⟩

/-- Dropping the empty sub-batches does not change what they hold together. -/
theorem flatten_filter_not_isEmpty (subs : List TRecordBatch) :
    (subs.filter (fun b => !b.isEmpty)).flatten = subs.flatten := by
  induction subs with
  | nil => rfl
  | cons b rest ih =>
    cases b with
    | nil => simpa [List.filter_cons] using ih
    | cons r t => simp [List.filter_cons, ih]

/-- The batches of the write operations are the non-empty sub-batches. -/
theorem WriteOperations_batches (longTxId : Nat) (dedupId : String)
    (partitions : List TPartition) (subs : List TRecordBatch)
    (hlen : subs.length = partitions.length) :
    (WriteOperations longTxId dedupId partitions subs).map (fun op => op.Batch)
      = subs.filter (fun b => !b.isEmpty) := by
  induction partitions generalizing subs with
  | nil =>
    cases subs with
    | nil => rfl
    | cons b t => simp at hlen
  | cons p rest ih =>
    cases subs with
    | nil => simp at hlen
    | cons b t =>
      have ht : t.length = rest.length := by simpa using hlen
      have := ih t ht
      unfold WriteOperations at this ⊢
      cases b with
      | nil => simpa [List.filter_cons] using this
      | cons r u => simpa [List.filter_cons] using this

/-- C6: partition coverage of `DoLongTxWriteSameMailbox`. For every row batch
and every navigated partitioning whose ranges cover the full key space, the
routing leaves no row unrouted, makes one sub-batch per partition, puts every
row of the batch in exactly one sub-batch, that of a partition whose range
contains its key, and the sub-batches together are the batch (the same rows
with the same multiplicities); when the path resolved, the write issues the
operations for these sub-batches, which carry exactly the rows of the batch. -/
theorem DoLongTxWrite_partition_coverage (longTxId : Nat)
    (dedupId databaseName path : String) (navigateResult : TSchemeCacheNavigate)
    (batch : TRecordBatch)
    (hcov : ∀ key : Int, ∃ p ∈ navigateResult.Partitions, p.Range.Contains key = true) :
    ∃ subs, SplitBatch navigateResult.Partitions batch = (subs, [])
      ∧ subs.length = navigateResult.Partitions.length
      ∧ (∀ row ∈ batch, ∃! i, ∃ sub, subs.get? i = some sub ∧ row ∈ sub)
      ∧ (∀ i sub, subs.get? i = some sub → ∀ row ∈ sub,
          ∃ p, navigateResult.Partitions.get? i = some p ∧ p.Range.Contains row.Key = true)
      ∧ subs.flatten.Perm batch
      ∧ (navigateResult.Resolved = true →
          DoLongTxWriteSameMailbox longTxId dedupId databaseName path navigateResult batch
            = .ok (WriteOperations longTxId dedupId navigateResult.Partitions subs))
      ∧ ((WriteOperations longTxId dedupId navigateResult.Partitions subs).map
            (fun op => op.Batch)).flatten.Perm batch := by
  have hun : (SplitBatch navigateResult.Partitions batch).2 = [] := by
    apply List.eq_nil_iff_forall_not_mem.2
    intro row hrow
    rw [mem_SplitBatch_unrouted] at hrow
    obtain ⟨i, hi⟩ := FindPartition_of_covered navigateResult.Partitions row.Key (hcov row.Key)
    rw [hi] at hrow
    exact absurd hrow.2 (by simp)
  have hlen := SplitBatch_length navigateResult.Partitions batch
  have hperm : (SplitBatch navigateResult.Partitions batch).1.flatten.Perm batch := by
    have := SplitBatch_perm navigateResult.Partitions batch
    rwa [hun, List.append_nil] at this
  refine ⟨(SplitBatch navigateResult.Partitions batch).1, ?_, hlen, ?_, ?_, hperm, ?_, ?_⟩
  · rw [← hun]
  · intro row hrow
    obtain ⟨i, hi⟩ := FindPartition_of_covered navigateResult.Partitions row.Key (hcov row.Key)
    obtain ⟨p, hp, _⟩ := FindPartition_some navigateResult.Partitions row.Key i hi
    have hlt : i < (SplitBatch navigateResult.Partitions batch).1.length := by
      rw [hlen]
      exact (List.get?_eq_some.1 hp).1
    refine ⟨i, ⟨(SplitBatch navigateResult.Partitions batch).1.get ⟨i, hlt⟩, ?_, ?_⟩, ?_⟩
    · exact List.get?_eq_get hlt
    · exact (mem_SplitBatch_sub _ _ row i _ (List.get?_eq_get hlt)).2 ⟨hrow, hi⟩
    · rintro j ⟨sub, hsub, hmem⟩
      have hj := ((mem_SplitBatch_sub _ _ row j sub hsub).1 hmem).2
      rw [hi] at hj
      exact (Option.some.inj hj).symm
  · intro i sub hsub row hmem
    have hi := ((mem_SplitBatch_sub _ _ row i sub hsub).1 hmem).2
    exact FindPartition_some navigateResult.Partitions row.Key i hi
  · intro hres
    simp only [DoLongTxWriteSameMailbox, hres, hun]
    rfl
  · rw [WriteOperations_batches longTxId dedupId _ _ hlen, flatten_filter_not_isEmpty]
    exact hperm

/-- Witness of `DoLongTxWrite_partition_coverage`: ten rows over the ranges
key < 100 (partition 1) and key >= 100 (partition 2), six and four rows: one
write of six rows to partition 1 and one of four rows to partition 2, together
the ten rows. -/
theorem DoLongTxWrite_partition_coverage_witness :
    (∃ subs, SplitBatch twoRanges.Partitions tenRows = (subs, [])
      ∧ subs.length = twoRanges.Partitions.length
      ∧ (∀ row ∈ tenRows, ∃! i, ∃ sub, subs.get? i = some sub ∧ row ∈ sub)
      ∧ (∀ i sub, subs.get? i = some sub → ∀ row ∈ sub,
          ∃ p, twoRanges.Partitions.get? i = some p ∧ p.Range.Contains row.Key = true)
      ∧ subs.flatten.Perm tenRows
      ∧ (twoRanges.Resolved = true →
          DoLongTxWriteSameMailbox 7 "dedup" "/Root" "/Root/table" twoRanges tenRows
            = .ok (WriteOperations 7 "dedup" twoRanges.Partitions subs))
      ∧ ((WriteOperations 7 "dedup" twoRanges.Partitions subs).map
            (fun op => op.Batch)).flatten.Perm tenRows)
    ∧ (DoLongTxWriteSameMailbox 7 "dedup" "/Root" "/Root/table" twoRanges tenRows).toOption.map
          (fun ops => ops.map (fun op => (op.ShardId, op.Batch.length)))
        = some [(1, 6), (2, 4)] :=
  ⟨DoLongTxWrite_partition_coverage 7 "dedup" "/Root" "/Root/table" twoRanges tenRows
    (fun key => by
      by_cases h : key < 100
      · exact ⟨_, List.mem_cons_self _ _, by simp [TKeyRange.Contains, h]⟩
      · exact ⟨_, List.mem_cons_of_mem _ (List.mem_cons_self _ _),
          by simp [TKeyRange.Contains, Int.not_lt.1 h]⟩),
   by decide⟩

end NKikimr.NGRpcService
